import Mathlib

/-!
Verification development for `paper_markdown_text_classifier.py`, a batch
utility that extracts text from Word documents, classifies each document as
an examination paper (model inference or filename keyword heuristic), copies
accepted files into a mirrored output tree and appends audit-log lines.

Texts and paths are modelled as `List Char` (Python `str` is a sequence of
code points).  Probabilities are modelled as `ℚ`.  External libraries
(`python-docx`, `textract`, the pickled sklearn model, `requests`) are
modelled as function parameters; everything written in the script itself is
translated definition by definition.
-/

namespace PaperClassifier

/-- Python whitespace characters stripped by `str.strip()` (ASCII subset;
Python also strips other Unicode space characters, which never occur in
this development). -/
def isPyWhitespace (c : Char) : Bool :=
  c = ' ' || c = '\t' || c = '\n' || c = '\r' || c = '\x0b' || c = '\x0c'

/-- Python `str.strip()`: drop whitespace from both ends. -/
def pyStrip (s : List Char) : List Char :=
  ((s.dropWhile isPyWhitespace).reverse.dropWhile isPyWhitespace).reverse

/-- Worker for `pySplitlines`: accumulates the current line (reversed) and
emits it at each line boundary (`\r\n`, `\r` or `\n`); at end of input the
pending line is emitted only when nonempty, matching Python `splitlines`
(no trailing empty line for a trailing newline). -/
def pySplitlinesGo : List Char → List Char → List (List Char)
  | [], acc => if acc = [] then [] else [acc.reverse]
  | '\r' :: '\n' :: rest, acc => acc.reverse :: pySplitlinesGo rest []
  | '\r' :: rest, acc => acc.reverse :: pySplitlinesGo rest []
  | '\n' :: rest, acc => acc.reverse :: pySplitlinesGo rest []
  | c :: rest, acc => pySplitlinesGo rest (c :: acc)

/-- Python `str.splitlines()` restricted to the `\n`, `\r`, `\r\n`
boundaries (the exotic Unicode boundaries Python also recognises never
occur in this development). -/
def pySplitlines (s : List Char) : List (List Char) :=
  pySplitlinesGo s []

/-- Match a literal string (a list of chars) at the head of the input,
returning the remaining suffix. -/
def expectStr : List Char → List Char → Option (List Char)
  | [], s => some s
  | _ :: _, [] => none
  | p :: ps, c :: cs => if c = p then expectStr ps cs else none

/-- Lazy `.*?` followed by a continuation `k`: try `k` after consuming
0, 1, 2, ... characters, shortest first, exactly like a lazy star in a
backtracking regex engine.  `.` does not match a newline. -/
def lazyUntil (k : List Char → Option (List Char)) : List Char → Option (List Char)
  | [] => k []
  | c :: cs =>
    match k (c :: cs) with
    | some r => some r
    | none => if c = '\n' then none else lazyUntil k cs

/-- First alternative of the image pattern in `remove_image_string`:
`!\[(.*?)\]\(.*?\)\{width=\".*?\" height=\".*?\"\}`. -/
def imageAlt1 (s : List Char) : Option (List Char) :=
  (expectStr ['!', '['] s).bind
    (lazyUntil fun t => (expectStr [']', '('] t).bind
      (lazyUntil fun u => (expectStr [')', '\x7b', 'w', 'i', 'd', 't', 'h', '=', '"'] u).bind
        (lazyUntil fun v => (expectStr ['"', ' ', 'h', 'e', 'i', 'g', 'h', 't', '=', '"'] v).bind
          (lazyUntil fun w => expectStr ['"', '\x7d'] w))))

/-- Second alternative: `!\[.*?\]\(.*?\)`. -/
def imageAlt2 (s : List Char) : Option (List Char) :=
  (expectStr ['!', '['] s).bind
    (lazyUntil fun t => (expectStr [']', '('] t).bind
      (lazyUntil fun u => expectStr [')'] u))

/-- Third alternative: `\[.*?\]\{.*?\}`. -/
def imageAlt3 (s : List Char) : Option (List Char) :=
  (expectStr ['['] s).bind
    (lazyUntil fun t => (expectStr [']', '\x7b'] t).bind
      (lazyUntil fun u => expectStr ['\x7d'] u))

/-- Try the three alternatives of the pattern in source order at the
current position, returning the suffix after the first match. -/
def imageMatch (s : List Char) : Option (List Char) :=
  match imageAlt1 s with
  | some r => some r
  | none =>
    match imageAlt2 s with
    | some r => some r
    | none => imageAlt3 s

/-- Scan the input left to right; at each position either remove a match of
the image pattern or keep the character, exactly like `re.sub(pattern, "")`.
Every match consumes at least one character, so `s.length` steps of fuel
always suffice. -/
def removeImageAux : Nat → List Char → List Char
  | _, [] => []
  | 0, s => s
  | fuel + 1, c :: cs =>
    match imageMatch (c :: cs) with
    | some rest => removeImageAux fuel rest
    | none => c :: removeImageAux fuel cs

/-- `remove_image_string` (source lines 14-26): delete every match of
`!\[(.*?)\]\(.*?\)\{width=\".*?\" height=\".*?\"\}|!\[.*?\]\(.*?\)|\[.*?\]\{.*?\}`. -/
def remove_image_string (s : List Char) : List Char :=
  removeImageAux s.length s

/-- The literal characters written between the brackets of the character
class `[>*|image|data|media|png]` (source line 39).  Inside a character
class `|` is a literal and repeated letters are redundant: the class is the
set of its characters, not the alternation of those words. -/
def noiseClassChars : List Char :=
  ['>', '*', '|', 'i', 'm', 'a', 'g', 'e', '|', 'd', 'a', 't', 'a', '|',
   'm', 'e', 'd', 'i', 'a', '|', 'p', 'n', 'g']

/-- `remove_noise_character` (source lines 29-40):
`re.sub(r"[>*|image|data|media|png]", "", input_string)` deletes every
occurrence of a character of the class. -/
def remove_noise_character (s : List Char) : List Char :=
  s.filter (fun c => !(noiseClassChars.contains c))

/-- `one_text_pre_process` (source lines 43-64), kept lines before the
final join: per input line, strip image patterns, drop the line when the
stripped form trims to `""` or `">"`, otherwise remove noise characters. -/
def one_text_pre_process_lines (text : List Char) : List (List Char) :=
  (pySplitlines text).filterMap fun line =>
    let remove_image_line := remove_image_string line
    if pyStrip remove_image_line = [] ∨ pyStrip remove_image_line = ['>'] then none
    else some (remove_noise_character remove_image_line)

/-- `one_text_pre_process` (source lines 43-64): the kept lines rejoined
with `"\n"`. -/
def one_text_pre_process (text : List Char) : List Char :=
  List.intercalate ['\n'] (one_text_pre_process_lines text)

/-- Python string comparison `s1 <= s2`: lexicographic in code-point
order.  `char.lower()` below returns a string (for U+0130 a two-character
one), so the chained comparison in `detect_language` is a pair of these
string comparisons against `"a"` and `"z"`. -/
def pyStrLe : List Char → List Char → Bool
  | [], _ => true
  | _ :: _, [] => false
  | c :: cs, d :: ds => if c < d then true else if d < c then false else pyStrLe cs ds

/-- Python `char.lower()` as used in `detect_language`, as a string.
ASCII `A`-`Z` fold down by 32.  Outside ASCII, Python's Unicode table
maps U+0130 (LATIN CAPITAL LETTER I WITH DOT ABOVE) to the two-character
string `i` followed by U+0307 — the only multi-character `lower()` result
— and U+212A (KELVIN SIGN) to `k`.  Every other code point either
lowercases to itself or to a string on the same side of the interval
from `"a"` to `"z"` as the code point itself, so modelling it as the
identity keeps the comparison in `detect_language` exact: exhaustive
enumeration of all 0x110000 code points shows `chr(cp).lower()` lies in
that interval exactly for the ASCII letters plus U+0130 and U+212A. -/
def pyLower (c : Char) : List Char :=
  if 'A' ≤ c ∧ c ≤ 'Z' then [Char.ofNat (c.toNat + 32)]
  else if c = '\u0130' then ['i', '\u0307']
  else if c = '\u212a' then ['k']
  else [c]

/-- The character loop of `detect_language` (source lines 242-246):
thread the two counters through the text.  A CJK character increments
`chinese_count`; otherwise a character whose lowercased string lies
between `"a"` and `"z"` increments `english_count`. -/
def detectLangCounts : List Char → Nat → Nat → Nat × Nat
  | [], chinese_count, english_count => (chinese_count, english_count)
  | ch :: rest, chinese_count, english_count =>
    if '\u4e00' ≤ ch ∧ ch ≤ '\u9fff' then
      detectLangCounts rest (chinese_count + 1) english_count
    else if pyStrLe ['a'] (pyLower ch) && pyStrLe (pyLower ch) ['z'] then
      detectLangCounts rest chinese_count (english_count + 1)
    else
      detectLangCounts rest chinese_count english_count

/-- `detect_language` (source lines 235-253). -/
def detect_language (text : List Char) : List Char :=
  let counts := detectLangCounts text 0 0
  if counts.1 > counts.2 then "Chinese".data
  else if counts.2 > counts.1 then "English".data
  else "Unknown".data

/-- Membership test in the CJK Unified Ideographs range U+4E00..U+9FFF,
stated from the specification's words. -/
def isCJK (c : Char) : Bool :=
  decide ('\u4e00' ≤ c ∧ c ≤ '\u9fff')

/-- ASCII letter, case-insensitive, stated from the specification's
words. -/
def isAsciiLetterCI (c : Char) : Bool :=
  decide (('a' ≤ c ∧ c ≤ 'z') ∨ ('A' ≤ c ∧ c ≤ 'Z'))

/-- `detect_language` as the specification describes it: count CJK
characters and ASCII letters and compare the counts strictly. -/
def detect_language_spec (text : List Char) : List Char :=
  let cc := text.countP isCJK
  let ec := text.countP isAsciiLetterCI
  if cc > ec then "Chinese".data
  else if ec > cc then "English".data
  else "Unknown".data

/-- The characters the program's English counter accepts, stated for the
amended claim: the ASCII letters (case-insensitively) plus the two code
points whose Python lowercase falls within the interval from `"a"` to
`"z"` — U+0130 (LATIN CAPITAL LETTER I WITH DOT ABOVE) and U+212A
(KELVIN SIGN). -/
def isCountedLetter (c : Char) : Bool :=
  isAsciiLetterCI c || c = '\u0130' || c = '\u212a'

/-- `detect_language` as the amended claim describes it: count CJK
characters against `isCountedLetter` characters and compare the counts
strictly, ties yielding `Unknown`. -/
def detect_language_spec_amended (text : List Char) : List Char :=
  let cc := text.countP isCJK
  let ec := text.countP isCountedLetter
  if cc > ec then "Chinese".data
  else if ec > cc then "English".data
  else "Unknown".data

/-- Python's `sub in s` on strings: contiguous-substring containment. -/
def pyInStr (sub s : List Char) : Bool :=
  decide (sub <:+: s)

/-- `EXAMINATION_KEY_WORDS` (source line 256). -/
def EXAMINATION_KEY_WORDS : List (List Char) :=
  ["考试".data, "试卷".data, "卷".data, "试题".data, "试".data]

/-- `judge_examination_paper_by_file_name` (source lines 259-260):
`any(key_word in file_name for key_word in EXAMINATION_KEY_WORDS)`. -/
def judge_examination_paper_by_file_name (file_name : List Char) : Bool :=
  EXAMINATION_KEY_WORDS.any (fun key_word => pyInStr key_word file_name)

/-- `get_predict_with_threshold` (source lines 109-125).  The model is an
opaque, externally trained classifier; its `predict_proba` column for the
positive class is modelled as a function from a text to a rational
probability, applied elementwise to the batch. -/
def get_predict_with_threshold (model : List Char → ℚ) (X : List (List Char))
    (threshold : ℚ) : List Nat × List ℚ :=
  let positive_probabilities := X.map model
  let predictions := positive_probabilities.map (fun p => if p > threshold then 1 else 0)
  (predictions, positive_probabilities)

/-- `extract_text` (source lines 231-232):
`extract_text_from_docx(file_local) if ext in "docx" else
extract_text_from_doc(file_local)`.  Python's `in` on strings is a
substring test, so the condition asks whether `ext` is a substring of the
literal `"docx"`.  The two extractors wrap external document-parsing
libraries and can fail, so they are modelled as parameters returning
`Except`. -/
def extract_text (docxExtractor docExtractor : List Char → Except Unit (List Char))
    (file_local ext : List Char) : Except Unit (List Char) :=
  if pyInStr ext "docx".data then docxExtractor file_local
  else docExtractor file_local

/-- Observable outcome of `download_model` (source lines 159-209).
`requestStart` is the offset of the `Range: bytes=offset-` header of the
issued request (`none` when no request was made), `finalFileSize` the size
of the file stored under the final model name after the call, and
`incompleteWarning` whether the `progress_bar.n != total_size` branch
printed its error message. -/
structure DownloadResult where
  requestStart : Option Nat
  finalFileSize : Option Nat
  incompleteWarning : Bool
deriving DecidableEq

/-- `download_model` (source lines 159-209).  The environment is passed
in: whether a file of the final model name already exists (and its size),
the size of a leftover `.tmp` file if any, whether the HTTP response has a
success status, the total size parsed from the `content-range` header and
the number of body bytes the response streams.  A failing status raises
through `raise_for_status` (modelled as `Except.error`).  After streaming,
the code compares the progress count with the total, prints an error
message on mismatch, and renames the temp file to the final name in either
case. -/
def download_model (modelExists : Bool) (modelSize : Nat) (tmpSize : Option Nat)
    (statusOk : Bool) (totalSize : Nat) (bodyLen : Nat) : Except Unit DownloadResult :=
  if modelExists then
    .ok { requestStart := none, finalFileSize := some modelSize, incompleteWarning := false }
  else
    let initial_position := tmpSize.getD 0
    if !statusOk then
      .error ()
    else
      let received := initial_position + bodyLen
      let warned := totalSize ≠ 0 ∧ received ≠ totalSize
      .ok { requestStart := some initial_position,
            finalFileSize := some received,
            incompleteWarning := warned }

/-- `os.path.splitext` restricted to a bare file name: split off the
extension at the last dot, except that leading dots belong to the root
(`".bashrc"` has no extension). -/
def splitext (name : List Char) : List Char × List Char :=
  let lead := (name.takeWhile (fun c => c = '.')).length
  let rest := name.drop lead
  let tailAfterLastDot := rest.reverse.takeWhile (fun c => c ≠ '.')
  if tailAfterLastDot.length = rest.length then (name, [])
  else
    let ext := '.' :: tailAfterLastDot.reverse
    (name.take (name.length - ext.length), ext)

/-- `os.path.join` for two POSIX path operands. -/
def pathJoin (a b : List Char) : List Char :=
  match b with
  | '/' :: _ => b
  | _ =>
    match a with
    | [] => b
    | _ => if a.getLast? = some '/' then a ++ b else a ++ '/' :: b

/-- Split a path at `/` separators. -/
def splitOnSlash (s : List Char) : List (List Char) :=
  s.splitOn '/'

/-- Length of the common prefix of two component lists. -/
def commonPrefixLen : List (List Char) → List (List Char) → Nat
  | x :: xs, y :: ys => if x = y then commonPrefixLen xs ys + 1 else 0
  | _, _ => 0

/-- `os.path.relpath(path, start)` for already-normalised POSIX paths:
drop the common leading components, step up with `..` for what remains of
`start`, and return `"."` for identical paths. -/
def relpath (path start : List Char) : List Char :=
  let path_list := (splitOnSlash path).filter (fun c => !(c = []))
  let start_list := (splitOnSlash start).filter (fun c => !(c = []))
  let i := commonPrefixLen start_list path_list
  let rel_list := List.replicate (start_list.length - i) "..".data ++ path_list.drop i
  if rel_list = [] then ".".data else List.intercalate ['/'] rel_list

/-- `file_local.split("/")[-1]`. -/
def lastSlashComponent (s : List Char) : List Char :=
  (splitOnSlash s).getLastD []

/-- `FILE_SUFFIX` (source line 268). -/
def FILE_SUFFIX : List (List Char) :=
  [".doc".data, ".docx".data]

/-- One row of the `all_file` list built from `os.walk` (source lines
279-286): the directory currently walked and a file name inside it. -/
structure FileRow where
  root : List Char
  file : List Char
deriving DecidableEq

/-- The arguments `move_files` receives from the command line. -/
structure Config where
  input_dir : List Char
  output_dir : List Char
  threshold : ℚ
  just_by_file_name : Bool
deriving DecidableEq

/-- One line of `move_log.log` (source lines 337-338):
`f"{predict} {positive_probabilities[0]} {file_local}\n"`, modelled as its
three fields rather than as formatted text. -/
structure MoveLogEntry where
  predict : Bool
  prob : ℚ
  src : List Char
deriving DecidableEq

/-- The file-system and log state `move_files` mutates.  `existing` is the
set of paths present in the output tree (queried by `os.path.exists` and
extended by `shutil.copy`); `moveLog` and `fnameLog` are the two
append-only log files; `lastProb` is the Python local variable
`positive_probabilities`, which persists across loop iterations and is
unassigned (`none`) until a model classification first sets it. -/
structure BatchState where
  existing : List (List Char)
  moveLog : List MoveLogEntry
  fnameLog : List (List Char)
  lastProb : Option ℚ
deriving DecidableEq

/-- `_, ext = os.path.splitext(file)` (source line 294). -/
def extOf (row : FileRow) : List Char :=
  (splitext row.file).2

/-- `file_local = os.path.join(root, file)` with the Windows backslash
fix-up (source lines 299-303). -/
def fileLocalOf (row : FileRow) : List Char :=
  (pathJoin row.root row.file).map (fun c => if c = '\\' then '/' else c)

/-- `target_dir = os.path.join(output_dir, os.path.relpath(root, input_dir))`
(source line 305). -/
def targetDirOf (cfg : Config) (row : FileRow) : List Char :=
  pathJoin cfg.output_dir (relpath row.root cfg.input_dir)

/-- `target_file = os.path.join(target_dir, file_local.split("/")[-1])`
(source line 306). -/
def targetFileOf (cfg : Config) (row : FileRow) : List Char :=
  pathJoin (targetDirOf cfg row) (lastSlashComponent (fileLocalOf row))

/-- The body of the `for row in tqdm(all_file)` loop (source lines
289-338) for a single file.  A `.error st` result is an uncaught exception
aborting the whole batch with the side effects performed so far recorded
in `st`; the `try`/`except` of lines 311-319 covers only extraction and
language detection.  In the filename branch `positive_probabilities` is
not assigned, so the unconditional move-log write of lines 337-338 reads
the value left by a previous iteration and raises a `NameError` when there
is none. -/
def processOne (cfg : Config) (docxExtractor docExtractor : List Char → Except Unit (List Char))
    (model : List Char → ℚ) (st : BatchState) (row : FileRow) : Except BatchState BatchState :=
  if !(FILE_SUFFIX.contains (extOf row)) then .ok st
  else
    let file_local := fileLocalOf row
    let target_file := targetFileOf cfg row
    if st.existing.contains target_file then .ok st
    else
      match extract_text docxExtractor docExtractor file_local (extOf row) with
      | .error _ => .ok st
      | .ok text =>
        if !(detect_language text = "Chinese".data) then .ok st
        else
          let step :=
            if cfg.just_by_file_name || decide (text.length < 50) then
              let predict := judge_examination_paper_by_file_name row.file
              (predict,
               if predict then { st with fnameLog := st.fnameLog ++ [target_file] } else st)
            else
              let pr := get_predict_with_threshold model [one_text_pre_process text] cfg.threshold
              (decide (pr.1.headD 0 ≠ 0), { st with lastProb := some (pr.2.headD 0) })
          let predict := step.1
          let st1 := step.2
          let st2 :=
            if predict then { st1 with existing := st1.existing ++ [target_file] } else st1
          match st2.lastProb with
          | none => .error st2
          | some p => .ok { st2 with moveLog := st2.moveLog ++ [⟨predict, p, file_local⟩] }

/-- The `for` loop of `move_files` over the collected file rows; the first
uncaught exception aborts the remaining iterations. -/
def move_files_loop (cfg : Config) (docxExtractor docExtractor : List Char → Except Unit (List Char))
    (model : List Char → ℚ) : List FileRow → BatchState → Except BatchState BatchState
  | [], st => .ok st
  | row :: rows, st =>
    match processOne cfg docxExtractor docExtractor model st row with
    | .error e => .error e
    | .ok st' => move_files_loop cfg docxExtractor docExtractor model rows st'

/-- `move_files` (source lines 271-338).  `inputDirExists` models
`os.path.exists(input_dir)` and `sameAbsPath` the equality test of the two
`os.path.abspath` calls; either pre-flight failure raises a `ValueError`
before any file is processed.  `rows` is the list `all_file` produced by
walking the input directory. -/
def move_files (cfg : Config) (inputDirExists sameAbsPath : Bool)
    (docxExtractor docExtractor : List Char → Except Unit (List Char))
    (model : List Char → ℚ) (rows : List FileRow) (st : BatchState) :
    Except BatchState BatchState :=
  if !inputDirExists then .error st
  else if sameAbsPath then .error st
  else move_files_loop cfg docxExtractor docExtractor model rows st

/-! ### Claim-side definitions and concrete scenarios -/

/-- The thirteen characters the specification lists for the
noise-character set: `{>, *, |, i, m, a, g, e, d, t, p, n, c}`. -/
def claimNoiseChars : List Char :=
  ['>', '*', '|', 'i', 'm', 'a', 'g', 'e', 'd', 't', 'p', 'n', 'c']

/-- The distinct characters actually occurring in the character class
`[>*|image|data|media|png]`: the letters of image, data, media and png
contribute `i m a g e d t p n` only — there is no `c`. -/
def codeNoiseChars : List Char :=
  ['>', '*', '|', 'i', 'm', 'a', 'g', 'e', 'd', 't', 'p', 'n']

/-- The property claimed of `one_text_pre_process` output: no match of the
image/bracket-brace pattern remains (equivalently, re-running
`remove_image_string` changes nothing, since every match is nonempty) and
no output line trims to `""` or `">"`. -/
def c4ClaimHolds (t : List Char) : Bool :=
  let out := one_text_pre_process t
  (remove_image_string out == out)
    && (pySplitlines out).all (fun l => !(pyStrip l == []) && !(pyStrip l == ['>']))

/-- The state change a negatively classified model-mode file performs:
record the probability in `positive_probabilities` and append a
`False`-decision line to the move log; no copy, no filename-log line. -/
def appendNegativeLine (st : BatchState) (p : ℚ) (src : List Char) : BatchState :=
  { st with lastProb := some p, moveLog := st.moveLog ++ [⟨false, p, src⟩] }

/-- The rational 1/2, built by its constructor so that kernel reduction
never has to normalise a division. -/
def oneHalf : ℚ := ⟨1, 2, by decide, by decide⟩

/-- The rational 1/4. -/
def oneQuarter : ℚ := ⟨1, 4, by decide, by decide⟩

/-- The rational 3/4. -/
def threeQuarters : ℚ := ⟨3, 4, by decide, by decide⟩

/-- Scenario configuration: input root `in`, output root `out`, threshold
`1/2`, model mode. -/
def demoConfig : Config :=
  { input_dir := "in".data, output_dir := "out".data, threshold := oneHalf,
    just_by_file_name := false }

/-- Scenario configuration in pure filename-only mode. -/
def demoConfigFilenameOnly : Config :=
  { demoConfig with just_by_file_name := true }

/-- Fresh state: empty output tree, empty logs, `positive_probabilities`
never assigned. -/
def emptyState : BatchState :=
  { existing := [], moveLog := [], fnameLog := [], lastProb := none }

/-- Fifty CJK characters: detected as Chinese, long enough for the model
branch. -/
def longChineseText : List Char :=
  List.replicate 50 '试'

/-- A docx extractor that is never consulted in the scenarios. -/
def noDocxExtractor : List Char → Except Unit (List Char) :=
  fun _ => .error ()

/-- Extractor for the C2 scenario: a long Chinese document at
`in/a.docx` and a two-character Chinese document at `in/试卷b.doc`. -/
def demoDocExtractor : List Char → Except Unit (List Char) := fun f =>
  if f = "in/a.docx".data then .ok longChineseText
  else if f = "in/试卷b.doc".data then .ok "试题".data
  else .error ()

/-- `a.docx` under the input root: model-classified in the C2 scenario. -/
def demoRowModel : FileRow :=
  { root := "in".data, file := "a.docx".data }

/-- `试卷b.doc` under the input root: its extracted text is shorter than
50 characters, so the filename heuristic decides it (and matches the
keyword `试卷`). -/
def demoRowHeuristic : FileRow :=
  { root := "in".data, file := "试卷b.doc".data }

/-- Extractor for the C3 scenario: a one-character Chinese document at
`in/试.docx`. -/
def crashDocExtractor : List Char → Except Unit (List Char) := fun f =>
  if f = "in/试.docx".data then .ok "试".data else .error ()

/-- `试.docx`: well-formed, Chinese, keyword-matching file. -/
def crashRow : FileRow :=
  { root := "in".data, file := "试.docx".data }

/-- Extractor for the C5 scenario: a long Chinese document at
`in/c.docx`. -/
def copyDocExtractor : List Char → Except Unit (List Char) := fun f =>
  if f = "in/c.docx".data then .ok longChineseText else .error ()

/-- `c.docx`: the file the first C5 run classifies positively and
copies. -/
def copyRow : FileRow :=
  { root := "in".data, file := "c.docx".data }

/-- The state after the first C5 run: `c.docx` copied, one positive
move-log line, probability `3/4` recorded. -/
def copiedState : BatchState :=
  { existing := ["out/./c.docx".data],
    moveLog := [⟨true, threeQuarters, "in/c.docx".data⟩],
    fnameLog := [],
    lastProb := some threeQuarters }

/-- A state whose output tree already holds the mirrored target of
`demoRowModel`. -/
def preExistingState : BatchState :=
  { existing := ["out/./a.docx".data], moveLog := [], fnameLog := [],
    lastProb := none }

/-! ### Helper lemmas -/

/-- The character class written in the source and its deduplicated
twelve-character set have the same members. -/
theorem noiseClassChars_contains_eq (c : Char) :
    noiseClassChars.contains c = codeNoiseChars.contains c := by
  rw [Bool.eq_iff_iff]
  constructor
  · intro hx
    have hm : c ∈ noiseClassChars := List.elem_iff.mp hx
    apply List.elem_iff.mpr
    simp only [noiseClassChars, List.mem_cons, List.not_mem_nil, or_false] at hm
    simp only [codeNoiseChars, List.mem_cons, List.not_mem_nil, or_false]
    tauto
  · intro hx
    have hm : c ∈ codeNoiseChars := List.elem_iff.mp hx
    apply List.elem_iff.mpr
    simp only [codeNoiseChars, List.mem_cons, List.not_mem_nil, or_false] at hm
    simp only [noiseClassChars, List.mem_cons, List.not_mem_nil, or_false]
    tauto

/-- If the mirrored target path already exists, the loop body leaves the
state untouched, whatever the extractors and the model do. -/
theorem processOne_of_target_exists (cfg : Config)
    (docxE docE : List Char → Except Unit (List Char)) (model : List Char → ℚ)
    (st : BatchState) (row : FileRow)
    (hex : targetFileOf cfg row ∈ st.existing) :
    processOne cfg docxE docE model st row = .ok st := by
  by_cases h1 : extOf row ∈ FILE_SUFFIX
  · simp [processOne, h1, hex]
  · simp [processOne, h1]

/-- If extraction raises, the loop body leaves the state untouched. -/
theorem processOne_of_extract_error (cfg : Config)
    (docxE docE : List Char → Except Unit (List Char)) (model : List Char → ℚ)
    (st : BatchState) (row : FileRow)
    (herr : extract_text docxE docE (fileLocalOf row) (extOf row) = .error ()) :
    processOne cfg docxE docE model st row = .ok st := by
  by_cases h1 : extOf row ∈ FILE_SUFFIX
  · by_cases h2 : targetFileOf cfg row ∈ st.existing
    · simp [processOne, h1, h2]
    · simp [processOne, h1, h2, herr]
  · simp [processOne, h1]

/-- A model-mode file whose probability does not exceed the threshold is
not copied; the loop body only records the probability and appends a
negative move-log line. -/
theorem processOne_negative_model (cfg : Config)
    (docxE docE : List Char → Except Unit (List Char)) (model : List Char → ℚ)
    (st : BatchState) (row : FileRow) (text : List Char)
    (hsuffix : extOf row ∈ FILE_SUFFIX)
    (hnotex : targetFileOf cfg row ∉ st.existing)
    (hextract : extract_text docxE docE (fileLocalOf row) (extOf row) = .ok text)
    (hlang : detect_language text = "Chinese".data)
    (hmode : cfg.just_by_file_name = false)
    (hlen : ¬ text.length < 50)
    (hprob : ¬ model (one_text_pre_process text) > cfg.threshold) :
    processOne cfg docxE docE model st row
      = .ok (appendNegativeLine st (model (one_text_pre_process text)) (fileLocalOf row)) := by
  simp [processOne, hsuffix, hnotex, hextract, hlang, hmode, hlen,
    get_predict_with_threshold, hprob, appendNegativeLine]

/-- A loop step whose body succeeds continues with the produced state. -/
theorem move_files_loop_cons (cfg : Config)
    (docxE docE : List Char → Except Unit (List Char)) (model : List Char → ℚ)
    (st st' : BatchState) (row : FileRow) (rest : List FileRow)
    (h : processOne cfg docxE docE model st row = .ok st') :
    move_files_loop cfg docxE docE model (row :: rest) st
      = move_files_loop cfg docxE docE model rest st' := by
  simp [move_files_loop, h]

/-- `>` is in the noise character class, so it never survives
`remove_noise_character`. -/
theorem not_gt_mem_remove_noise_character (s : List Char) :
    '>' ∉ remove_noise_character s := by
  intro h
  have h2 := (List.mem_filter.mp h).2
  simp [noiseClassChars] at h2

/-- Every kept line of `one_text_pre_process` is the noise-filtered form
of some input line, hence contains no `>`. -/
theorem not_gt_mem_pre_process_line (t : List Char) (l : List Char)
    (hl : l ∈ one_text_pre_process_lines t) : '>' ∉ l := by
  obtain ⟨line, _, hsome⟩ := List.mem_filterMap.mp hl
  by_cases hdrop : pyStrip (remove_image_string line) = []
      ∨ pyStrip (remove_image_string line) = ['>']
  · simp [one_text_pre_process_lines, hdrop] at hsome
  · simp only [hdrop, if_false] at hsome
    cases hsome
    exact not_gt_mem_remove_noise_character (remove_image_string line)

/-- A character different from the separator and absent from every piece
is absent from the intercalation. -/
theorem not_mem_intercalate_newline (c : Char) (hc : c ≠ '\n') :
    ∀ L : List (List Char), (∀ l ∈ L, c ∉ l) → c ∉ List.intercalate ['\n'] L
  | [], _ => by simp [List.intercalate]
  | [x], h => by
    simpa [List.intercalate] using h x (by simp)
  | x :: y :: zs, h => by
    have hx : c ∉ x := h x (by simp)
    have hrest : c ∉ List.intercalate ['\n'] (y :: zs) :=
      not_mem_intercalate_newline c hc (y :: zs) (fun l hl => h l (by simp [hl]))
    simp only [List.intercalate, List.intersperse_cons_cons, List.flatten_cons] at hrest ⊢
    simp [hx, hc, hrest]

/-- Characters of the trimmed string come from the string. -/
theorem pyStrip_subset (l : List Char) (c : Char) (h : c ∈ pyStrip l) : c ∈ l := by
  unfold pyStrip at h
  rw [List.mem_reverse] at h
  have h1 := (List.dropWhile_sublist isPyWhitespace).subset h
  rw [List.mem_reverse] at h1
  exact (List.dropWhile_sublist isPyWhitespace).subset h1

/-! ### Theorems for the claims -/

/-- C1: the claim says `extract_text` dispatches `.docx` files to the
paragraph-concatenation extractor and `.doc` files to the converter-based
extractor.  The code's condition `ext in "docx"` is a Python substring
test that is false for both `".docx"` and `".doc"`, so every supported
file is routed to the converter-based extractor and the docx paragraph
extractor is never used. -/
theorem extract_text_always_uses_doc_converter
    (docxExtractor docExtractor : List Char → Except Unit (List Char)) (f : List Char) :
    extract_text docxExtractor docExtractor f ".docx".data = docExtractor f
    ∧ extract_text docxExtractor docExtractor f ".doc".data = docExtractor f :=
  ⟨rfl, rfl⟩

/-- C6: with no final model file, a leftover temp file of 3 bytes, a
successful response whose `content-range` total is 10 and whose body
carries 4 bytes, the code requests bytes from offset 3 (as claimed) but
then renames the temp file to the final model name even though only 7 of
10 bytes are present — the incomplete-download check only prints a
message.  The complete-response case is shown alongside for contrast. -/
theorem download_model_renames_incomplete_file :
    download_model false 0 (some 3) true 10 4
      = .ok { requestStart := some 3, finalFileSize := some 7, incompleteWarning := true }
    ∧ download_model false 0 none true 10 10
      = .ok { requestStart := some 0, finalFileSize := some 10, incompleteWarning := false } :=
  ⟨rfl, rfl⟩

/-- C7: `get_predict_with_threshold` labels an item 1 exactly when its
positive-class probability strictly exceeds the threshold, returns the
probability unchanged, and labels a probability equal to the threshold
0. -/
theorem get_predict_with_threshold_strict (model : List Char → ℚ) (x : List Char) (t : ℚ) :
    ((get_predict_with_threshold model [x] t).1 = [1] ↔ model x > t)
    ∧ ((get_predict_with_threshold model [x] t).2 = [model x])
    ∧ (model x = t → (get_predict_with_threshold model [x] t).1 = [0]) := by
  refine ⟨?_, rfl, ?_⟩
  · unfold get_predict_with_threshold
    by_cases h : model x > t <;> simp [h]
  · intro h
    unfold get_predict_with_threshold
    simp [h]

/-- Witness for C7 at probability `1/2` equal to the threshold `1/2`. -/
theorem get_predict_with_threshold_strict_witness :
    (get_predict_with_threshold (fun _ => (1 : ℚ)/2) [[]] ((1 : ℚ)/2)).1 = [0] :=
  (get_predict_with_threshold_strict (fun _ => (1 : ℚ)/2) [] ((1 : ℚ)/2)).2.2 rfl

/-- C9 counterexample: the claim lists `c` among the removed characters,
but the character class `[>*|image|data|media|png]` contains no `c`
(the letters of its four words are `i m a g e d t p n`), so the code
keeps `c` where the claimed set would remove it. -/
theorem remove_noise_character_keeps_c :
    remove_noise_character "c".data = "c".data
    ∧ "c".data.filter (fun ch => !(claimNoiseChars.contains ch)) = [] :=
  ⟨rfl, rfl⟩

/-- C9 (amended): `remove_noise_character` removes exactly the
occurrences of the twelve individual characters
`> * | i m a g e d t p n` (not `c`), keeping every other character in its
original order (the result is a sublist of the input); in particular a
lone `d` outside any of the words image, data, media, png is removed. -/
theorem remove_noise_character_per_char (s : List Char) :
    remove_noise_character s = s.filter (fun c => !(codeNoiseChars.contains c))
    ∧ (remove_noise_character s).Sublist s
    ∧ remove_noise_character "bd".data = "b".data := by
  refine ⟨?_, List.filter_sublist s, rfl⟩
  unfold remove_noise_character
  exact List.filter_congr (fun a _ => congrArg Bool.not (noiseClassChars_contains_eq a))

/-- C2: the claim says a file decided by the filename heuristic never gets
a move-log line.  In the code the move-log write of lines 337-338 runs for
every classified file.  First run: `a.docx` is model-classified
(probability 1/4, negative) and `试卷b.doc` then falls back to the
filename heuristic because its text has 2 characters — yet the final
state's move log holds a second line for `试卷b.doc`, carrying the stale
probability 1/4 of the previous file.  Second run: in pure filename-only
mode the same heuristic-decided file makes the write raise a `NameError`
(`positive_probabilities` never assigned), aborting the batch after the
copy and the filename-log line already happened. -/
theorem move_files_heuristic_file_hits_move_log :
    move_files demoConfig true false noDocxExtractor demoDocExtractor (fun _ => oneQuarter)
        [demoRowModel, demoRowHeuristic] emptyState
      = .ok { existing := ["out/./试卷b.doc".data],
              moveLog := [⟨false, oneQuarter, "in/a.docx".data⟩,
                          ⟨true, oneQuarter, "in/试卷b.doc".data⟩],
              fnameLog := ["out/./试卷b.doc".data],
              lastProb := some oneQuarter }
    ∧ move_files demoConfigFilenameOnly true false noDocxExtractor demoDocExtractor (fun _ => oneQuarter)
        [demoRowHeuristic] emptyState
      = .error { existing := ["out/./试卷b.doc".data],
                 moveLog := [],
                 fnameLog := ["out/./试卷b.doc".data],
                 lastProb := none } :=
  ⟨rfl, rfl⟩

/-- C3 counterexample: a single well-formed file processed in filename-only
mode raises an uncaught `NameError` at the move-log write, so one file's
in-loop error aborts the whole batch — contradicting the claim that every
per-file error is caught and the batch always continues. -/
theorem move_files_batch_aborted_by_one_file :
    move_files demoConfigFilenameOnly true false noDocxExtractor crashDocExtractor (fun _ => oneQuarter)
        [crashRow] emptyState
      = .error { existing := ["out/./试.docx".data],
                 moveLog := [],
                 fnameLog := ["out/./试.docx".data],
                 lastProb := none } :=
  rfl

/-- C5 counterexample: `c.docx` is classified positively (probability 3/4
above threshold 1/2), copied and logged by the first run; the second run
finds the mirrored target and skips the file before any classification or
logging, so the final state is unchanged — no duplicate move-log line is
appended for a file the first run processed, contradicting the claim that
the second run appends duplicate log lines for previously processed
files. -/
theorem move_files_second_run_appends_nothing :
    move_files demoConfig true false noDocxExtractor copyDocExtractor (fun _ => threeQuarters)
        [copyRow] emptyState = .ok copiedState
    ∧ move_files demoConfig true false noDocxExtractor copyDocExtractor (fun _ => threeQuarters)
        [copyRow] copiedState = .ok copiedState :=
  ⟨rfl, rfl⟩

/-- C10: a supported file whose mirrored target already exists is skipped
before any other action: the state (output tree and both logs) is
unchanged and the loop moves on.  The extractors and the model are
universally quantified, so the result cannot depend on them — no
extraction or classification is consulted. -/
theorem move_files_target_exists_skips_file (cfg : Config)
    (docxE docE : List Char → Except Unit (List Char)) (model : List Char → ℚ)
    (st : BatchState) (row : FileRow) (rest : List FileRow)
    (hsuffix : extOf row ∈ FILE_SUFFIX)
    (hex : targetFileOf cfg row ∈ st.existing) :
    processOne cfg docxE docE model st row = .ok st
    ∧ move_files_loop cfg docxE docE model (row :: rest) st
        = move_files_loop cfg docxE docE model rest st := by
  have h := processOne_of_target_exists cfg docxE docE model st row hex
  exact ⟨h, move_files_loop_cons cfg docxE docE model st st row rest h⟩

/-- Witness for C10: `a.docx` with its mirrored target
`out/./a.docx` already present is skipped with the state unchanged. -/
theorem move_files_target_exists_skips_file_witness :
    processOne demoConfig noDocxExtractor noDocxExtractor (fun _ => oneQuarter)
        preExistingState demoRowModel = .ok preExistingState
    ∧ move_files_loop demoConfig noDocxExtractor noDocxExtractor (fun _ => oneQuarter)
        [demoRowModel] preExistingState
      = move_files_loop demoConfig noDocxExtractor noDocxExtractor (fun _ => oneQuarter)
        [] preExistingState :=
  move_files_target_exists_skips_file demoConfig noDocxExtractor noDocxExtractor
    (fun _ => oneQuarter) preExistingState demoRowModel [] (by decide) (by decide)

/-- C3 (amended): errors raised during text extraction (and language
detection) are caught by the `try`/`except` of lines 311-319: the file is
skipped with no log entry and the batch continues with the next file.
Errors raised later in the loop body — such as the `NameError` at the
move-log write in filename-only mode — are not caught and abort the
batch (see the counterexample). -/
theorem move_files_extraction_failure_isolated (cfg : Config)
    (docxE docE : List Char → Except Unit (List Char)) (model : List Char → ℚ)
    (st : BatchState) (row : FileRow) (rest : List FileRow)
    (herr : extract_text docxE docE (fileLocalOf row) (extOf row) = .error ()) :
    processOne cfg docxE docE model st row = .ok st
    ∧ move_files_loop cfg docxE docE model (row :: rest) st
        = move_files_loop cfg docxE docE model rest st := by
  have h := processOne_of_extract_error cfg docxE docE model st row herr
  exact ⟨h, move_files_loop_cons cfg docxE docE model st st row rest h⟩

/-- Witness for C3 (amended): with extractors that always raise,
`a.docx` is skipped with the state unchanged and the loop continues. -/
theorem move_files_extraction_failure_isolated_witness :
    processOne demoConfig noDocxExtractor noDocxExtractor (fun _ => oneQuarter)
        emptyState demoRowModel = .ok emptyState
    ∧ move_files_loop demoConfig noDocxExtractor noDocxExtractor (fun _ => oneQuarter)
        [demoRowModel] emptyState
      = move_files_loop demoConfig noDocxExtractor noDocxExtractor (fun _ => oneQuarter)
        [] emptyState :=
  move_files_extraction_failure_isolated demoConfig noDocxExtractor noDocxExtractor
    (fun _ => oneQuarter) emptyState demoRowModel [] rfl

/-- C5 (amended): a second run is a no-op for previously-copied files —
their mirrored target exists, so they are skipped with no new copy and no
new log line — while a file processed but not copied (a negative model
decision) is re-processed and the identical negative move-log line is
appended again; only such files produce duplicate log lines. -/
theorem move_files_rerun_noop_copied_relog_uncopied (cfg : Config)
    (docxE docE : List Char → Except Unit (List Char)) (model : List Char → ℚ)
    (st : BatchState) (row : FileRow) (text : List Char) :
    (targetFileOf cfg row ∈ st.existing →
      processOne cfg docxE docE model st row = .ok st)
    ∧ (extOf row ∈ FILE_SUFFIX →
       targetFileOf cfg row ∉ st.existing →
       extract_text docxE docE (fileLocalOf row) (extOf row) = .ok text →
       detect_language text = "Chinese".data →
       cfg.just_by_file_name = false →
       ¬ text.length < 50 →
       ¬ model (one_text_pre_process text) > cfg.threshold →
       processOne cfg docxE docE model st row
         = .ok (appendNegativeLine st (model (one_text_pre_process text)) (fileLocalOf row))
       ∧ processOne cfg docxE docE model
           (appendNegativeLine st (model (one_text_pre_process text)) (fileLocalOf row)) row
         = .ok (appendNegativeLine
             (appendNegativeLine st (model (one_text_pre_process text)) (fileLocalOf row))
             (model (one_text_pre_process text)) (fileLocalOf row))) := by
  constructor
  · intro hex
    exact processOne_of_target_exists cfg docxE docE model st row hex
  · intro hsuffix hnotex hextract hlang hmode hlen hprob
    refine ⟨processOne_negative_model cfg docxE docE model st row text hsuffix hnotex
      hextract hlang hmode hlen hprob, ?_⟩
    exact processOne_negative_model cfg docxE docE model
      (appendNegativeLine st (model (one_text_pre_process text)) (fileLocalOf row))
      row text hsuffix hnotex hextract hlang hmode hlen hprob

/-- Witness for C5 (amended): `a.docx` with probability 1/4 below the
threshold 1/2 is logged negatively; processing it again appends the same
line a second time; and once a target exists the file is skipped. -/
theorem move_files_rerun_noop_copied_relog_uncopied_witness :
    processOne demoConfig noDocxExtractor demoDocExtractor (fun _ => oneQuarter)
        preExistingState demoRowModel = .ok preExistingState
    ∧ processOne demoConfig noDocxExtractor demoDocExtractor (fun _ => oneQuarter)
        emptyState demoRowModel
      = .ok (appendNegativeLine emptyState oneQuarter "in/a.docx".data)
    ∧ processOne demoConfig noDocxExtractor demoDocExtractor (fun _ => oneQuarter)
        (appendNegativeLine emptyState oneQuarter "in/a.docx".data) demoRowModel
      = .ok (appendNegativeLine (appendNegativeLine emptyState oneQuarter "in/a.docx".data)
          oneQuarter "in/a.docx".data) := by
  refine ⟨(move_files_rerun_noop_copied_relog_uncopied demoConfig noDocxExtractor
      demoDocExtractor (fun _ => oneQuarter) preExistingState demoRowModel
      longChineseText).1 (by decide), ?_, ?_⟩
  · exact ((move_files_rerun_noop_copied_relog_uncopied demoConfig noDocxExtractor
      demoDocExtractor (fun _ => oneQuarter) emptyState demoRowModel
      longChineseText).2 (by decide) (by decide) rfl (by decide) rfl (by decide)
      (by decide)).1
  · exact ((move_files_rerun_noop_copied_relog_uncopied demoConfig noDocxExtractor
      demoDocExtractor (fun _ => oneQuarter) emptyState demoRowModel
      longChineseText).2 (by decide) (by decide) rfl (by decide) rfl (by decide)
      (by decide)).2

/-- C4 counterexample: the noise-character filter runs after the
blank-line filter, so a line made entirely of noise characters (`iii`)
passes the filter and is emptied afterwards, leaving a blank line in the
output of `one_text_pre_process`; and the image-pattern substitution can
splice a new image reference out of the surrounding text
(`!![x](y)[a](b)` becomes `![a](b)`, noise-filtered to `![](b)`), so an
image-reference pattern can survive in the output. -/
theorem one_text_pre_process_claim_fails :
    c4ClaimHolds "x\niii\ny".data = false
    ∧ one_text_pre_process "x\niii\ny".data = "x\n\ny".data
    ∧ c4ClaimHolds "!![x](y)[a](b)".data = false
    ∧ one_text_pre_process "!![x](y)[a](b)".data = "![](b)".data :=
  ⟨by decide, by decide, by decide, by decide⟩

/-- C4 (amended): the output of `one_text_pre_process` never contains the
character `>` at all — it is removed from every kept line by the
noise-character filter — so in particular no output line trims to a
single `>`.  Blank output lines and spliced image-reference patterns can
remain (see the counterexample). -/
theorem one_text_pre_process_no_gt_line (t : List Char) :
    (one_text_pre_process t).contains '>' = false
    ∧ (one_text_pre_process_lines t).all (fun l => !(pyStrip l == ['>'])) = true := by
  have hmem : '>' ∉ one_text_pre_process t := by
    exact not_mem_intercalate_newline '>' (by decide) (one_text_pre_process_lines t)
      (not_gt_mem_pre_process_line t)
  constructor
  · cases hc : (one_text_pre_process t).contains '>'
    · rfl
    · exact absurd (List.elem_iff.mp hc) hmem
  · rw [List.all_eq_true]
    intro l hl
    have hgt : '>' ∉ l := not_gt_mem_pre_process_line t l hl
    cases hb : pyStrip l == ['>']
    · rfl
    · have : pyStrip l = ['>'] := by simpa using hb
      exact absurd (pyStrip_subset l '>' (this ▸ by simp)) hgt

/-- A one-character string comparison each way is the character
comparison. -/
theorem pyStrLe_single (c d : Char) : pyStrLe [c] [d] = decide (c ≤ d) := by
  by_cases h1 : c < d
  · simp [pyStrLe, h1, le_of_lt h1]
  · by_cases h2 : d < c
    · have h3 : ¬ c ≤ d := not_le.mpr h2
      simp [pyStrLe, h1, h2, h3]
    · have h3 : c ≤ d := not_lt.mp h2
      simp [pyStrLe, h1, h2, h3]

/-- The source's per-character English test — lowercase the character as a
string and compare it with the interval from `"a"` to `"z"` — accepts
exactly the ASCII letters plus U+0130 and U+212A. -/
theorem english_test_eq (ch : Char) :
    (pyStrLe ['a'] (pyLower ch) && pyStrLe (pyLower ch) ['z']) = isCountedLetter ch := by
  by_cases hAZ : 'A' ≤ ch ∧ ch ≤ 'Z'
  · rw [pyLower, if_pos hAZ]
    have hr : isCountedLetter ch = true := by
      simp [isCountedLetter, isAsciiLetterCI, hAZ.1, hAZ.2]
    rw [hr, pyStrLe_single, pyStrLe_single]
    obtain ⟨h1, h2⟩ := hAZ
    have hn1 : 65 ≤ ch.toNat := h1
    have hn2 : ch.toNat ≤ 90 := h2
    set n := ch.toNat with hn
    interval_cases n <;> exact (by decide)
  · by_cases hI : ch = '\u0130'
    · subst hI
      decide
    · by_cases hK : ch = '\u212a'
      · subst hK
        decide
      · rw [pyLower, if_neg hAZ, if_neg hI, if_neg hK, pyStrLe_single, pyStrLe_single]
        have hr : isCountedLetter ch = isAsciiLetterCI ch := by
          simp [isCountedLetter, hI, hK]
        rw [hr]
        simp only [isAsciiLetterCI]
        rcases Decidable.em ('a' ≤ ch) with ha | ha <;>
          rcases Decidable.em (ch ≤ 'z') with hz | hz <;>
          simp [ha, hz, hAZ]

/-- The counter loop of `detect_language` computes the two `countP`
values of the amended claim's predicates, on top of the accumulators. -/
theorem detectLangCounts_eq (l : List Char) : ∀ c e : Nat,
    detectLangCounts l c e = (c + l.countP isCJK, e + l.countP isCountedLetter) := by
  induction l with
  | nil =>
    intro c e
    simp [detectLangCounts]
  | cons ch rest ih =>
    intro c e
    by_cases h1 : '\u4e00' ≤ ch ∧ ch ≤ '\u9fff'
    · have hn : 19968 ≤ ch.toNat := h1.1
      have hc : isCJK ch = true := by simp [isCJK, h1]
      have hA : isAsciiLetterCI ch = false := by
        simp only [isAsciiLetterCI, decide_eq_false_iff_not]
        rintro (⟨_, hz⟩ | ⟨_, hz⟩)
        · have hz' : ch.toNat ≤ 122 := hz
          omega
        · have hz' : ch.toNat ≤ 90 := hz
          omega
      have hI : ¬ ch = '\u0130' := by
        intro heq
        subst heq
        exact absurd hn (by decide)
      have hK : ¬ ch = '\u212a' := by
        intro heq
        subst heq
        exact absurd hn (by decide)
      have he : isCountedLetter ch = false := by
        simp [isCountedLetter, hA, hI, hK]
      simp [detectLangCounts, h1, ih, List.countP_cons, hc, he]
      omega
    · by_cases h2 : pyStrLe ['a'] (pyLower ch) && pyStrLe (pyLower ch) ['z']
      · have hc : isCJK ch = false := by simp [isCJK, h1]
        have he : isCountedLetter ch = true := by rw [← english_test_eq]; exact h2
        simp [detectLangCounts, h1, h2, ih, List.countP_cons, hc, he]
        omega
      · have hc : isCJK ch = false := by simp [isCJK, h1]
        have he : isCountedLetter ch = false := by
          rw [← english_test_eq]
          simpa using h2
        simp [detectLangCounts, h1, h2, ih, List.countP_cons, hc, he]

/-- C8 counterexample: the claim says the English counter counts ASCII
letters, but Python `char.lower()` maps U+212A (KELVIN SIGN) to `k`, so
the code counts it as an English letter.  On the two-character text
`一` + U+212A the code counts 1 CJK against 1 letter and returns
`Unknown`, while the claim's ASCII-count description (1 CJK against 0
ASCII letters) predicts `Chinese`. -/
theorem detect_language_kelvin_counterexample :
    detect_language ['\u4e00', '\u212a'] = "Unknown".data
    ∧ detect_language_spec ['\u4e00', '\u212a'] = "Chinese".data :=
  ⟨by decide, by decide⟩

/-- C8 (amended): `detect_language` counts characters in the CJK Unified
Ideographs range U+4E00–U+9FFF against characters whose Python-lowercased
string lies between `"a"` and `"z"` — the ASCII letters
(case-insensitively) plus U+0130 and U+212A — and returns `Chinese` when
the CJK count strictly exceeds the letter count, `English` when the
letter count strictly exceeds the CJK count, and `Unknown` on a tie. -/
theorem detect_language_eq_spec_amended (text : List Char) :
    detect_language text = detect_language_spec_amended text := by
  unfold detect_language detect_language_spec_amended
  rw [detectLangCounts_eq]
  simp

end PaperClassifier
